import Mathlib

/-
Verification development for the interactive statistics helper
(`Stat-helper.py`).  The Python program is shallowly embedded:

* Python floats are modelled as exact rationals (`ℚ`); quantities whose
  source computation goes through `math.sqrt` are modelled in `ℝ` with
  `Real.sqrt` (the sums feeding them stay rational and computable).
* Python exceptions (`ZeroDivisionError`, `ValueError` from
  `math.sqrt` on a negative radicand, `NameError` from an undefined
  identifier) are modelled by an explicit error type; none of them is
  caught anywhere in the source, so they are process-fatal outcomes.
* The interactive helpers are modelled as state machines driven by a
  list of provider-validated inputs (the bounded input provider retries
  until valid, so the dispatcher only ever sees valid values).
  Console printing is not modelled except for the diagnostic reports
  that the claims talk about, which are recorded as output events.
* The external statistical library (scipy's `norm`, `chi2`, `math.sqrt`
  inside helper bodies) is an external collaborator; helper state
  machines take it as an explicit parameter `StatLib`.
-/

namespace StatHelper

/-- Python runtime errors raised (uncaught) by the source. -/
inductive PyErr where
  | zeroDivision   -- ZeroDivisionError
  | mathDomain     -- ValueError: math domain error (math.sqrt of a negative)
  | nameError      -- NameError: undefined identifier
deriving DecidableEq

/-! ## Regression engine: first-pass sums (source lines 1306-1317, 1468-1479) -/

/-- Sum of x values: `totalx` accumulated in the first pass. -/
def sumL (xs : List ℚ) : ℚ := xs.sum

/-- Sum of squares: `totalx2` / `totaly2` accumulated in the first pass. -/
def sumSq (xs : List ℚ) : ℚ := (xs.map (fun x => x ^ 2)).sum

/-- Sum of products `totalxy` over paired data (source keeps parallel
lists `xlist`, `ylist` and loops over indices; we zip them). -/
def sumProd (xs ys : List ℚ) : ℚ := ((xs.zip ys).map (fun p => p.1 * p.2)).sum

/-- The x radicand `n*totalx2 - totalx**2` (source line 1314). -/
def radX (xs : List ℚ) : ℚ := (xs.length : ℚ) * sumSq xs - (sumL xs) ^ 2

/-- The y radicand `n*totaly2 - totaly**2` (source line 1314). -/
def radY (ys : List ℚ) : ℚ := (ys.length : ℚ) * sumSq ys - (sumL ys) ^ 2

/-- Numerator `n*totalxy - totalx*totaly` of R and of the slope. -/
def rNum (xs ys : List ℚ) : ℚ :=
  (xs.length : ℚ) * sumProd xs ys - sumL xs * sumL ys

/-- Outcome of evaluating the R line
`R = (n*totalxy - totalx*totaly)/(math.sqrt(n*totalx2 - totalx**2) * math.sqrt(n*totaly2 - totaly**2))`
(source line 1314, identically line 1479).  `math.sqrt` raises a math
domain error on a negative radicand; otherwise the denominator
`sqrt(radX)*sqrt(radY)` is zero exactly when one of the radicands is
zero, and Python then raises `ZeroDivisionError`.  The source contains
no degenerate-data branch; the `degenerateData` constructor exists only
so that the specification's claimed behaviour can be stated. -/
inductive ROutcome where
  | ok
  | degenerateData
  | pyError (e : PyErr)
deriving DecidableEq

/-- Error behaviour of the R line in `crunch_data` (and in command
code 4 of the regression helper, which runs the same expression). -/
def rLineOutcome (xs ys : List ℚ) : ROutcome :=
  if radX xs < 0 ∨ radY ys < 0 then .pyError .mathDomain
  else if radX xs = 0 ∨ radY ys = 0 then .pyError .zeroDivision
  else .ok

/-- Error behaviour of the forward-line computation of command code 6
(source lines 1534-1535): `intercept` and `slope` divide by
`n*totalx2 - totalx**2`, with no square root involved. -/
def line6Outcome (xs _ys : List ℚ) : ROutcome :=
  if radX xs = 0 then .pyError .zeroDivision else .ok

/-! ## Forward line, R formulas (values) -/

/-- `intercept = (totaly*totalx2 - totalx*totalxy)/(n*totalx2 - totalx**2)`
(source line 1315 / 1534); rational, no square root. -/
def interceptQ (xs ys : List ℚ) : ℚ :=
  (sumL ys * sumSq xs - sumL xs * sumProd xs ys) / radX xs

/-- `slope = (n*totalxy - totalx*totaly)/(n*totalx2 - totalx**2)`
(source line 1316 / 1535). -/
def slopeQ (xs ys : List ℚ) : ℚ := rNum xs ys / radX xs

/-- The correlation coefficient by the first (sufficient statistics)
formula, source line 1314 / 1479, with `math.sqrt` modelled exactly by
`Real.sqrt`. -/
noncomputable def Rformula1 (xs ys : List ℚ) : ℝ :=
  ((rNum xs ys : ℚ) : ℝ) /
    (Real.sqrt ((radX xs : ℚ) : ℝ) * Real.sqrt ((radY ys : ℚ) : ℝ))

/-- Mean of the x values, `meanx = totalx/n` (source line 1501). -/
def meanL (xs : List ℚ) : ℚ := sumL xs / (xs.length : ℚ)

/-- Centered sum of squares `Σ (x - meanx)^2` accumulated by command
code 5 before it divides by n and takes the square root
(source lines 1503-1505). -/
def cSumSq (xs : List ℚ) : ℚ := (xs.map (fun x => (x - meanL xs) ^ 2)).sum

/-- Centered cross sum `Σ (x - meanx)*(y - meany)`, the `totalsum`
of command code 5 (source lines 1509-1510). -/
def cSumProd (xs ys : List ℚ) : ℚ :=
  ((xs.zip ys).map (fun p => (p.1 - meanL xs) * (p.2 - meanL ys))).sum

/-- Population standard deviation `sx = math.sqrt(sx/n)` of command
code 5 (source line 1506). -/
noncomputable def sdevPop (xs : List ℚ) : ℝ :=
  Real.sqrt (((cSumSq xs : ℚ) : ℝ) / (xs.length : ℝ))

/-- The correlation coefficient by the second formula of command
code 5: `R = totalsum / ((n-1)*sx*sy)` (source line 1513). -/
noncomputable def Rformula2 (xs ys : List ℚ) : ℝ :=
  ((cSumProd xs ys : ℚ) : ℝ) /
    (((xs.length : ℝ) - 1) * sdevPop xs * sdevPop ys)

/-! ## Reverse line (command code 7, source lines 1584-1598) -/

/-- Reverse-line denominator `denom = n*totaly2 - totaly**2`
(source line 1584). -/
def revDenom (ys : List ℚ) : ℚ := radY ys

/-- The reverse (x on y) line of command code 7.  `none` models the
`denom == 0` branch that reports "can not compute values" and skips
the computation (source lines 1585-1586).  Note the source numerator
`totalx*totaly**2 - totaly*totalxy` uses `totaly**2` = (Σy)², not
`totaly2` = Σy² (source line 1588). -/
def reverseLine (xs ys : List ℚ) : Option (ℚ × ℚ) :=
  if revDenom ys = 0 then none
  else some
    ((sumL xs * (sumL ys) ^ 2 - sumL ys * sumProd xs ys) / revDenom ys,
     ((ys.length : ℚ) * sumProd xs ys - sumL xs * sumL ys) / revDenom ys)

/-- Modelled from the spec: the reverse intercept as the specification
states it, `(Σx·Σy² - Σy·Σxy)/(nΣy² - (Σy)²)` — the forward intercept
formula with x and y swapped, using the sum of squares Σy² in the
numerator.  Stated for comparison with `reverseLine`. -/
def specRevIntercept (xs ys : List ℚ) : ℚ :=
  (sumL xs * sumSq ys - sumL ys * sumProd xs ys) / revDenom ys

/-- Standard error `SE = math.sqrt((totaly2 - intercept*totaly - slope*totalxy)/n)`
(source line 1317). -/
noncomputable def seR (xs ys : List ℚ) : ℝ :=
  Real.sqrt (((sumSq ys - interceptQ xs ys * sumL ys
                - slopeQ xs ys * sumProd xs ys) / (xs.length : ℚ) : ℚ) : ℝ)

/-! ## Regression session state and the cached-statistics discipline -/

/-- Session state of the regression helper: the point lists, the
`data_crunched` / `data_from_file` flags, and the module-level cached
statistics written by `crunch_data`. -/
structure RegState where
  xs : List ℚ
  ys : List ℚ
  dataCrunched : Bool
  dataFromFile : Bool
  rCache : ℝ
  slopeCache : ℚ
  interceptCache : ℚ
  seCache : ℝ

/-- `crunch_data()` (source lines 1284-1338) restricted to the cached
quantities this development tracks: it recomputes R, intercept, slope
and SE from the current lists and sets `data_crunched = True`. -/
noncomputable def crunchState (st : RegState) : RegState :=
  { st with
    rCache := Rformula1 st.xs st.ys
    interceptCache := interceptQ st.xs st.ys
    slopeCache := slopeQ st.xs st.ys
    seCache := seR st.xs st.ys
    dataCrunched := true }

/-- One iteration of the point-correction loop of command code 3
(source lines 1444-1459): `k` is the 1-based point number (the input
provider bounds it to `1 ≤ k ≤ n`); a stored coordinate is overwritten,
and `data_crunched` / `data_from_file` are cleared, only when the newly
entered value differs from the stored one. -/
def correctPoint (st : RegState) (k : ℕ) (x y : ℚ) : RegState :=
  let i := k - 1
  let st1 :=
    if st.xs.getD i 0 ≠ x then
      { st with xs := st.xs.set i x, dataCrunched := false, dataFromFile := false }
    else st
  if st1.ys.getD i 0 ≠ y then
    { st1 with ys := st1.ys.set i y, dataCrunched := false, dataFromFile := false }
  else st1

/-- Command code 4 (read R): with `data_crunched` set it prints the
cached `R`; otherwise, with data present, it evaluates the first
formula afresh and then calls `crunch_data()` (source lines 1464-1483).
`none` models the empty-data redirect to command code 1. -/
noncomputable def readR4 (st : RegState) : Option (ℝ × RegState) :=
  if st.dataCrunched then some (st.rCache, st)
  else if st.xs.length ≠ 0 then
    some (Rformula1 st.xs st.ys, crunchState st)
  else none

/-- Command code 6 (read the forward line): with `data_crunched` unset
it recomputes intercept and slope from the current lists (without
setting `data_crunched`); with it set it prints the cached values
(source lines 1519-1544). -/
def readLine6 (st : RegState) : Option (ℚ × ℚ × RegState) :=
  if st.xs.length = 0 then none
  else if st.dataCrunched = false then
    some (interceptQ st.xs st.ys, slopeQ st.xs st.ys,
      { st with interceptCache := interceptQ st.xs st.ys,
                slopeCache := slopeQ st.xs st.ys })
  else some (st.interceptCache, st.slopeCache, st)

/-- Command code 7 (full statistics dump): calls `crunch_data()` first
when `data_crunched` is unset and data is present, then prints the
cached fields (source lines 1550-1575); `none` models the empty-data
redirect. -/
noncomputable def dump7 (st : RegState) : Option RegState :=
  let st1 :=
    if st.dataCrunched = false ∧ st.xs.length ≠ 0 then crunchState st else st
  if st.xs.length = 0 then none else some st1

/-! ## Tabular (CSV) export and import (source lines 1383-1403 and 1421-1426)

Text is modelled over an explicit symbol alphabet: decimal digits plus
the punctuation the format uses.  A rational `q` (our model of a
Python float) is serialized as `[-]num/den`; like Python's
`str(float)`, the serialization is comma-free, contains no letter `x`,
and parses back to exactly the value written.  Lines contain no
whitespace, so Python's `.strip()` is the identity here. -/

inductive Sym where
  | digit (d : Fin 10)
  | dash
  | slash
  | comma
  | quote
  | xch
  | ych
deriving DecidableEq

/-- One decimal digit as a symbol. -/
def symOfDigit (d : ℕ) : Sym := .digit ⟨d % 10, Nat.mod_lt d (by norm_num)⟩

/-- Big-endian decimal digits of a natural number. -/
def natSyms (m : ℕ) : List Sym := ((Nat.digits 10 m).reverse).map symOfDigit

/-- Serialization of a rational: optional minus sign, numerator
magnitude, separator, denominator (our stand-in for `str(x)` at
source line 1424). -/
def ratSyms (q : ℚ) : List Sym :=
  (if q < 0 then [Sym.dash] else []) ++ natSyms q.num.natAbs
    ++ Sym.slash :: natSyms q.den

/-- One step of big-endian digit parsing. -/
def stepDigit (acc : Option ℕ) (s : Sym) : Option ℕ :=
  acc.bind fun a =>
    match s with
    | .digit d => some (a * 10 + d.val)
    | _ => none

/-- Parse a digit string back to a natural number. -/
def parseNatSyms (s : List Sym) : Option ℕ := s.foldl stepDigit (some 0)

/-- Split a symbol string at the first occurrence of `t`
(the model of Python's `line.index(",")` slicing, source
lines 1391-1394). -/
def splitAtFirst (t : Sym) : List Sym → Option (List Sym × List Sym)
  | [] => none
  | a :: rest =>
    if a = t then some ([], rest)
    else (splitAtFirst t rest).map (fun p => (a :: p.1, p.2))

/-- Parse an unsigned serialized rational. -/
def parsePosRat (s : List Sym) : Option ℚ :=
  (splitAtFirst .slash s).bind fun p =>
    (parseNatSyms p.1).bind fun a =>
      (parseNatSyms p.2).map fun b => (a : ℚ) / (b : ℚ)

/-- Parse a serialized rational; our stand-in for Python's `float(...)`
(source lines 1393, 1395).  A failed parse is `none` (in the source an
uncaught `ValueError`). -/
def parseRatSyms : List Sym → Option ℚ
  | Sym.dash :: rest => (parsePosRat rest).map (fun q => -q)
  | s => parsePosRat s

/-- The header line `"x","y"` written by the export (source
line 1422). -/
def headerLine : List Sym :=
  [.quote, .xch, .quote, .comma, .quote, .ych, .quote]

/-- One exported data line `str(x)+","+str(y)` (source line 1424). -/
def pointLine (x y : ℚ) : List Sym := ratSyms x ++ Sym.comma :: ratSyms y

/-- CSV export of command code 2 (source lines 1421-1426): the header
line followed by one `x,y` line per point, in order, appended to a
fresh target file. -/
def exportCsv (xs ys : List ℚ) : List (List Sym) :=
  headerLine :: (xs.zip ys).map (fun p => pointLine p.1 p.2)

/-- The per-line import loop of command code 1 (source lines
1385-1399), with `k` the running count of data points read: a line
with no comma is reported and skipped without incrementing `k`; the
first line (`k == 0`) containing an `x` is treated as a header and
skipped; otherwise the line is split at its first comma and both
fields parsed (`none` models the uncaught `ValueError` of a failed
`float(...)`). -/
def importLines : List (List Sym) → ℕ → Option (List ℚ × List ℚ × ℕ)
  | [], k => some ([], [], k)
  | line :: rest, k =>
    if Sym.comma ∉ line then importLines rest k
    else if k = 0 ∧ Sym.xch ∈ line then importLines rest k
    else
      (splitAtFirst .comma line).bind fun p =>
        (parseRatSyms p.1).bind fun x =>
          (parseRatSyms p.2).bind fun y =>
            (importLines rest (k + 1)).map fun r =>
              (x :: r.1, y :: r.2.1, r.2.2)

/-- Whole-file import: the x list, the y list (appended in file
order) and the final count `n = k` (source line 1403). -/
def importCsv (file : List (List Sym)) : Option (List ℚ × List ℚ × ℕ) :=
  importLines file 0

/-! ## Interactive helpers as state machines

Each helper loop is modelled as a step function from (state, current
command code, remaining provider-validated inputs) to a step result,
iterated by a fuel-indexed runner that implements the `while(code > 0)`
loop.  Print-only computations are kept as discarded `let` bindings
where they call the external library.  A branch of the source that
reads a Python name which has never been assigned is modelled as a
fatal `NameError`. -/

/-- The external statistical function library (scipy `norm`, `chi2`,
`math.sqrt`): an external collaborator, taken as a parameter. -/
structure StatLib where
  normCdf : ℚ → ℚ
  normPpf : ℚ → ℚ
  chi2Cdf : ℚ → ℕ → ℚ
  chi2Ppf : ℚ → ℕ → ℚ
  sqrt : ℚ → ℚ

/-- A trivial library instance, used to evaluate control-flow facts
that do not depend on the library's values. -/
def zeroLib : StatLib :=
  ⟨fun _ => 0, fun _ => 0, fun _ _ => 0, fun _ _ => 0, fun _ => 0⟩

/-- Result of one iteration of a helper's command loop: the next
state with the next command code and remaining inputs, a fatal
uncaught exception, or exhaustion of the modelled input stream. -/
inductive StepRes (σ ι κ : Type) where
  | next (st : σ) (code : κ) (rest : List ι)
  | fatal (e : PyErr)
  | stuck
deriving DecidableEq

/-- Outcome of running a helper loop to completion. -/
inductive RunOutcome (σ : Type) where
  | exited (st : σ)
  | fatal (e : PyErr)
  | stuck
  | fuelOut
deriving DecidableEq

/-- Fall through to the trailing next-command prompt at the bottom of
a helper loop body (e.g. source line 940), consuming one input. -/
def finishQ {σ : Type} (st : σ) : List ℚ → StepRes σ ℚ ℚ
  | c :: rest => .next st c rest
  | [] => .stuck

/-! ### Normal-distribution helper (source lines 748-941) -/

/-- State of `normal_helper`: rounding, the `mean_set` flag, the
mean and standard-deviation parameters and the single
deferred-command slot `future_code` (0 = empty). -/
structure NormalState where
  r : ℚ
  meanSet : Bool
  mean : ℚ
  sdev : ℚ
  future : ℚ
deriving DecidableEq

/-- One iteration of the `normal_helper` command loop (the body of
`while(code > 0)`, source lines 761-940).  The `mean`/`sdev` fields
are placeholders until `meanSet` is true; source branches that would
read them unassigned raise `NameError`.  Three branches reference
identifiers that do not exist in the source and are fatal whenever
reached: code 8 (`get_user_float_inputinput`, line 818), code 12
(`NONE`, line 862) and code 14 (`Z_low`, line 910). -/
def normalIter (lib : StatLib) (st : NormalState) (code : ℚ)
    (inputs : List ℚ) : StepRes NormalState ℚ ℚ :=
  if code = 1 then
    match inputs with
    | r1 :: rest => finishQ { st with r := r1 } rest
    | [] => .stuck
  else if code = 2 then
    match inputs with
    | u :: s :: rest =>
      let st1 : NormalState := { st with mean := u, sdev := s, meanSet := true }
      if st.future > 0 then .next { st1 with future := 0 } st.future rest
      else finishQ st1 rest
    | _ => .stuck
  else if code = 3 then
    if st.meanSet = false then .fatal .nameError else finishQ st inputs
  else if code = 4 then
    match inputs with
    | z :: rest => let _p := lib.normCdf z; finishQ st rest
    | [] => .stuck
  else if code = 5 then
    match inputs with
    | z :: rest => let _p := lib.normCdf z; finishQ st rest
    | [] => .stuck
  else if code = 6 then
    if st.meanSet = false then .next { st with future := 6 } 2 inputs
    else match inputs with
      | upper :: rest =>
        let _p := lib.normCdf ((upper - st.mean) / st.sdev); finishQ st rest
      | [] => .stuck
  else if code = 7 then
    if st.meanSet = false then .next { st with future := 7 } 2 inputs
    else match inputs with
      | lower :: rest =>
        let _p := lib.normCdf ((lower - st.mean) / st.sdev); finishQ st rest
      | [] => .stuck
  else if code = 8 then
    if st.meanSet = false then .next { st with future := 8 } 2 inputs
    else .fatal .nameError
  else if code = 9 then
    if st.meanSet = false then .next { st with future := 9 } 2 inputs
    else match inputs with
      | _x :: rest => finishQ st rest
      | [] => .stuck
  else if code = 10 then
    if st.meanSet = false then .next { st with future := 10 } 2 inputs
    else match inputs with
      | _z :: rest => finishQ st rest
      | [] => .stuck
  else if code = 11 then
    if st.meanSet = false then .next { st with future := 11 } 2 inputs
    else match inputs with
      | p :: rest => let _z := lib.normPpf p; finishQ st rest
      | [] => .stuck
  else if code = 12 then
    if st.meanSet = false then .next { st with future := 12 } 2 inputs
    else .fatal .nameError
  else if code = 13 then
    if st.meanSet = false then .next { st with future := 13 } 2 inputs
    else match inputs with
      | alpha :: _x :: rest => let _z := lib.normPpf (alpha / 2); finishQ st rest
      | _ => .stuck
  else if code = 14 then
    match inputs with
    | _zlow :: _ => .fatal .nameError
    | [] => .stuck
  else if code = 15 then
    match inputs with
    | prob :: rest =>
      let _z := lib.normPpf prob; let _z2 := lib.normPpf (1 - prob)
      finishQ st rest
    | [] => .stuck
  else if code = 16 then
    match inputs with
    | prob :: rest =>
      let _z := lib.normPpf ((1 - prob) / 2); let _z2 := lib.normPpf (prob / 2)
      finishQ st rest
    | [] => .stuck
  else if code = 17 then finishQ st inputs
  else finishQ st inputs

/-- The `while(code > 0)` loop of `normal_helper`, with fuel. -/
def runNormal (lib : StatLib) :
    ℕ → NormalState → ℚ → List ℚ → RunOutcome NormalState
  | 0, _, _, _ => .fuelOut
  | fuel + 1, st, code, inputs =>
    if code > 0 then
      match normalIter lib st code inputs with
      | .next st1 c rest => runNormal lib fuel st1 c rest
      | .fatal e => .fatal e
      | .stuck => .stuck
    else .exited st

/-- Initial state of `normal_helper`: rounding defaults to 4 with no
prompt (source line 758), no parameters, empty deferred slot. -/
def normalInit : NormalState := ⟨4, false, 0, 0, 0⟩

/-- A whole `normal_helper` session: the first input is the first
command-code prompt (source line 760). -/
def runNormalHelper (lib : StatLib) (fuel : ℕ) (inputs : List ℚ) :
    RunOutcome NormalState :=
  match inputs with
  | code :: rest => runNormal lib fuel normalInit code rest
  | [] => .stuck

/-! ### Difference-of-proportions helper (source lines 381-517) -/

/-- State of `diff_prop_helper`: parameters of the two samples, the
`parms_set` flag and the deferred slot `future_code`. -/
structure DiffState where
  r : ℚ
  parmsSet : Bool
  future : ℚ
  d : ℚ
  sdev : ℚ
  n1 : ℚ
  p1 : ℚ
  n2 : ℚ
  p2 : ℚ
  k1 : ℚ
  k2 : ℚ
  pbar : ℚ
deriving DecidableEq

/-- One iteration of the `diff_prop_helper` command loop.  A blocked
operation (codes 1, 2, 5 with `parms_set == False`) records itself in
`future_code` and then PROMPTS for the next code (source lines
398-400, 421-423, 487-489): the consumed input becomes the next code.
Codes 3 and 4 set the parameters and, with a pending deferral, resume
it directly (source lines 454-457, 480-483).  `int(p*n)` is modelled
by the floor, exact for the positive provider-validated inputs. -/
def diffIter (lib : StatLib) (st : DiffState) (code : ℚ)
    (inputs : List ℚ) : StepRes DiffState ℚ ℚ :=
  if code = 1 then
    if st.parmsSet = false then
      match inputs with
      | c :: rest => .next { st with future := 1 } c rest
      | [] => .stuck
    else match inputs with
      | newD :: alpha :: rest =>
        let z := (newD - st.d) / st.sdev
        let _chance := if z > 0 then 1 - lib.normCdf z else lib.normCdf z
        let _a := alpha
        finishQ st rest
      | _ => .stuck
  else if code = 2 then
    if st.parmsSet = false then
      match inputs with
      | c :: rest => .next { st with future := 2 } c rest
      | [] => .stuck
    else match inputs with
      | confidence :: rest =>
        let _zstar := lib.normPpf ((1 - confidence) / 2)
        finishQ st rest
      | [] => .stuck
  else if code = 3 then
    match inputs with
    | m1 :: q1 :: m2 :: q2 :: rest =>
      let c1 : ℚ := ((q1 * m1).floor : ℤ)
      let c2 : ℚ := ((q2 * m2).floor : ℤ)
      let st1 : DiffState :=
        { st with
          n1 := m1
          p1 := q1
          n2 := m2
          p2 := q2
          k1 := c1
          k2 := c2
          d := q1 - q2
          sdev := lib.sqrt (q1 * (1 - q1) / m1 + q2 * (1 - q2) / m2)
          pbar := (c1 + c2) / (m1 + m2)
          parmsSet := true }
      if st.future > 0 then .next { st1 with future := 0 } st.future rest
      else finishQ st1 rest
    | _ => .stuck
  else if code = 4 then
    match inputs with
    | m1 :: c1 :: m2 :: c2 :: rest =>
      let q1 := c1 / m1
      let q2 := c2 / m2
      let st1 : DiffState :=
        { st with
          n1 := m1
          p1 := q1
          n2 := m2
          p2 := q2
          k1 := c1
          k2 := c2
          d := q1 - q2
          sdev := lib.sqrt (q1 * (1 - q1) / m1 + q2 * (1 - q2) / m2)
          pbar := (c1 + c2) / (m1 + m2)
          parmsSet := true }
      if st.future > 0 then .next { st1 with future := 0 } st.future rest
      else finishQ st1 rest
    | _ => .stuck
  else if code = 5 then
    if st.parmsSet = false then
      match inputs with
      | c :: rest => .next { st with future := 5 } c rest
      | [] => .stuck
    else match inputs with
      | _z :: rest => finishQ st rest
      | [] => .stuck
  else if code = 6 then
    match inputs with
    | r1 :: _lower :: _upper :: rest => finishQ { st with r := r1 } rest
    | _ => .stuck
  else if code = 7 then
    match inputs with
    | r1 :: rest => finishQ { st with r := r1 } rest
    | [] => .stuck
  else if code = 8 then
    if st.parmsSet = false then .fatal .nameError
    else match inputs with
      | _dhat :: rest => finishQ st rest
      | [] => .stuck
  else if code = 9 then finishQ st inputs
  else finishQ st inputs

/-- The `while(code > 0)` loop of `diff_prop_helper`, with fuel. -/
def runDiff (lib : StatLib) :
    ℕ → DiffState → ℚ → List ℚ → RunOutcome DiffState
  | 0, _, _, _ => .fuelOut
  | fuel + 1, st, code, inputs =>
    if code > 0 then
      match diffIter lib st code inputs with
      | .next st1 c rest => runDiff lib fuel st1 c rest
      | .fatal e => .fatal e
      | .stuck => .stuck
    else .exited st

/-- Initial state of `diff_prop_helper` once the rounding prompt has
been answered with `r0` (source lines 387-389). -/
def diffInit (r0 : ℚ) : DiffState := ⟨r0, false, 0, 0, 0, 0, 0, 0, 0, 0, 0, 0⟩

/-- A whole `diff_prop_helper` session: the inputs start with the
rounding prompt and the first command-code prompt. -/
def runDiffHelper (lib : StatLib) (fuel : ℕ) (inputs : List ℚ) :
    RunOutcome DiffState :=
  match inputs with
  | r0 :: code :: rest => runDiff lib fuel (diffInit r0) code rest
  | _ => .stuck

/-! ### Chi-square helper (source lines 519-747) -/

/-- Typed inputs of the chi-square helper: the bounded input provider
has integer, float and yes/no prompts. -/
inductive Inp where
  | int (z : ℤ)
  | float (q : ℚ)
  | yn (b : Bool)
deriving DecidableEq

/-- Diagnostic reports of the chi-square helper that the claims refer
to: probabilities not summing to 1 (source lines 627-629), expected
frequencies not summing to the observed total (source lines 657-659).
Other console output is not modelled. -/
inductive OutEvt where
  | probSumReport (totalP : ℚ)
  | freqSumReport (totalE : ℚ)
deriving DecidableEq

/-- State of `chi2_helper` (source lines 526-538). -/
structure Chi2State where
  r : ℤ
  future : ℤ
  N : ℕ
  v : ℕ
  total : ℤ
  observed : List ℤ
  expected : List ℚ
  chance : List ℚ
  z2 : List ℚ
  chiSquared : ℚ
  yates : ℚ
  dataEntered : Bool
  out : List OutEvt
deriving DecidableEq

/-- Consume one integer prompt. -/
def takeInt : List Inp → Option (ℤ × List Inp)
  | .int z :: rest => some (z, rest)
  | _ => none

/-- Consume one float prompt. -/
def takeFloat : List Inp → Option (ℚ × List Inp)
  | .float q :: rest => some (q, rest)
  | _ => none

/-- Consume one yes/no prompt. -/
def takeYn : List Inp → Option (Bool × List Inp)
  | .yn b :: rest => some (b, rest)
  | _ => none

/-- Consume `n` integer prompts. -/
def takeInts : ℕ → List Inp → Option (List ℤ × List Inp)
  | 0, inputs => some ([], inputs)
  | n + 1, inputs =>
    (takeInt inputs).bind fun p =>
      (takeInts n p.2).map fun q => (p.1 :: q.1, q.2)

/-- Consume `n` float prompts. -/
def takeFloats : ℕ → List Inp → Option (List ℚ × List Inp)
  | 0, inputs => some ([], inputs)
  | n + 1, inputs =>
    (takeFloat inputs).bind fun p =>
      (takeFloats n p.2).map fun q => (p.1 :: q.1, q.2)

/-- Consume `n` numerator/denominator integer pairs, producing the
probabilities `num/denom` (source lines 610-613). -/
def takeFracs : ℕ → List Inp → Option (List ℚ × List Inp)
  | 0, inputs => some ([], inputs)
  | n + 1, inputs =>
    (takeInt inputs).bind fun p =>
      (takeInt p.2).bind fun q =>
        (takeFracs n q.2).map fun w =>
          (((p.1 : ℚ) / (q.1 : ℚ)) :: w.1, w.2)

/-- Fall through to the trailing next-command prompt of the chi-square
loop (source line 745), consuming one integer input. -/
def finishI {σ : Type} (st : σ) : List Inp → StepRes σ Inp ℤ
  | .int c :: rest => .next st c rest
  | _ => .stuck

/-- The per-category chi-square terms `(O_k - E_k)^2 / E_k`. -/
def chiTerms (observed : List ℤ) (expected : List ℚ) : List ℚ :=
  (observed.zip expected).map (fun p => ((p.1 : ℚ) - p.2) ^ 2 / p.2)

/-- The per-category Yates-corrected terms `(|O_k - E_k| - 0.5)^2 / E_k`. -/
def yatesTerms (observed : List ℤ) (expected : List ℚ) : List ℚ :=
  (observed.zip expected).map (fun p => (|(p.1 : ℚ) - p.2| - 1 / 2) ^ 2 / p.2)

/-- One iteration of the `chi2_helper` command loop (source lines
544-745).  Codes 2-5 with no observations and code 6 with no complete
data record themselves in `future_code` and redirect without
prompting.  Code 1 restores a pending deferred code into `code` and
clears the slot (source lines 570-572) — but that branch has no
`continue`, so execution falls through to the next-code prompt at
line 745 and the restored code is overwritten; only the clearing of
the slot survives. -/
def chi2Iter (lib : StatLib) (st : Chi2State) (code : ℤ)
    (inputs : List Inp) : StepRes Chi2State Inp ℤ :=
  if code = 1 then
    match takeInt inputs with
    | none => .stuck
    | some (n0, in1) =>
      let N := n0.toNat
      match takeInts N in1 with
      | none => .stuck
      | some (obs, in2) =>
        match takeYn in2 with
        | none => .stuck
        | some (ht, in3) =>
          match (if ht then (takeInt in3).map (fun p => p.2) else some in3) with
          | none => .stuck
          | some in4 =>
            let st1 : Chi2State :=
              { st with
                N := N
                v := N - 1
                total := obs.sum
                observed := obs
                expected := List.replicate N 0
                chance := List.replicate N 0
                z2 := List.replicate N 0 }
            if st.future ≠ 0 then finishI { st1 with future := 0 } in4
            else finishI st1 in4
  else if code = 2 then
    if st.total = 0 then .next { st with future := 2 } 1 inputs
    else
      let p : ℚ := (st.total : ℚ) / (st.N : ℚ)
      let expected := List.replicate st.N p
      let z2 := chiTerms st.observed expected
      let st1 : Chi2State :=
        { st with
          expected := expected
          z2 := z2
          chiSquared := z2.sum
          yates := (yatesTerms st.observed expected).sum
          dataEntered := true }
      let _pc := lib.chi2Cdf st1.chiSquared st1.v
      finishI st1 inputs
  else if code = 3 then
    if st.total = 0 then .next { st with future := 3 } 1 inputs
    else
      match takeYn inputs with
      | none => .stuck
      | some (asFractions, in1) =>
        match (if asFractions then takeFracs st.N in1 else takeFloats st.N in1) with
        | none => .stuck
        | some (ps, in2) =>
          let expected := ps.map (fun p => p * (st.total : ℚ))
          let z2 := chiTerms st.observed expected
          let totalP := ps.sum
          let st1 : Chi2State :=
            { st with
              chance := ps
              expected := expected
              z2 := z2
              chiSquared := z2.sum
              yates := (yatesTerms st.observed expected).sum }
          if totalP > 1001 / 1000 ∨ totalP < 999 / 1000 then
            finishI { st1 with out := st1.out ++ [.probSumReport totalP] } in2
          else
            let _pc := lib.chi2Cdf st1.chiSquared st1.v
            finishI { st1 with dataEntered := true } in2
  else if code = 4 then
    if st.total = 0 then .next { st with future := 4 } 1 inputs
    else
      match takeFloats st.N inputs with
      | none => .stuck
      | some (es, in1) =>
        let z2 := chiTerms st.observed es
        let totalE := es.sum
        let st1 : Chi2State :=
          { st with
            expected := es
            z2 := z2
            chiSquared := z2.sum
            yates := (yatesTerms st.observed es).sum }
        if |totalE - (st.total : ℚ)| > 1 / 1000 then
          finishI { st1 with out := st1.out ++ [.freqSumReport totalE] } in1
        else
          let _pc := lib.chi2Cdf st1.chiSquared st1.v
          finishI { st1 with dataEntered := true } in1
  else if code = 5 then
    if st.total = 0 then .next { st with future := 5 } 1 inputs
    else
      let _pc := lib.chi2Cdf st.chiSquared st.v
      finishI st inputs
  else if code = 6 then
    if st.dataEntered = false then .next { st with future := 6 } 5 inputs
    else
      match takeInt inputs with
      | none => .stuck
      | some (r1, in1) =>
        match takeFloat in1 with
        | none => .stuck
        | some (alpha, in2) =>
          let _p := lib.chi2Cdf st.chiSquared st.v
          let _pc := lib.chi2Ppf (1 - alpha) st.v
          finishI { st with r := r1 } in2
  else if code = 7 then
    match takeInt inputs with
    | none => .stuck
    | some (r1, in1) => finishI { st with r := r1 } in1
  else if code = 8 then finishI st inputs
  else finishI st inputs

/-- The `while(code > 0)` loop of `chi2_helper`, with fuel. -/
def runChi2 (lib : StatLib) :
    ℕ → Chi2State → ℤ → List Inp → RunOutcome Chi2State
  | 0, _, _, _ => .fuelOut
  | fuel + 1, st, code, inputs =>
    if code > 0 then
      match chi2Iter lib st code inputs with
      | .next st1 c rest => runChi2 lib fuel st1 c rest
      | .fatal e => .fatal e
      | .stuck => .stuck
    else .exited st

/-- Initial state of `chi2_helper` once the rounding prompt has been
answered with `r0` (source lines 526-538): empty deferred slot, no
data, the singleton placeholder lists of the source. -/
def chi2Init (r0 : ℤ) : Chi2State :=
  ⟨r0, 0, 0, 0, 0, [0], [0], [0], [0], 0, 0, false, []⟩

/-- A whole `chi2_helper` session: the inputs start with the rounding
prompt and the first command-code prompt. -/
def runChi2Helper (lib : StatLib) (fuel : ℕ) (inputs : List Inp) :
    RunOutcome Chi2State :=
  match takeInt inputs with
  | none => .stuck
  | some (r0, in1) =>
    match takeInt in1 with
    | none => .stuck
    | some (code, in2) => runChi2 lib fuel (chi2Init r0) code in2

/-! ## Arithmetic facts about the sufficient statistics -/

/-- Expansion of a centered sum of squares against the raw sums. -/
theorem cShift_sq (xs : List ℚ) (a : ℚ) :
    (xs.map (fun x => (x - a) ^ 2)).sum
      = sumSq xs - 2 * a * sumL xs + (xs.length : ℚ) * a ^ 2 := by
  induction xs with
  | nil => simp [sumSq, sumL]
  | cons x t ih =>
    simp only [List.map_cons, List.sum_cons, sumSq, sumL, List.length_cons] at ih ⊢
    rw [ih]
    push_cast
    ring

/-- Expansion of a centered cross sum against the raw sums. -/
theorem cShift_prod (xs : List ℚ) (a b : ℚ) :
    ∀ ys : List ℚ, ys.length = xs.length →
      ((xs.zip ys).map (fun p => (p.1 - a) * (p.2 - b))).sum
        = sumProd xs ys - b * sumL xs - a * sumL ys + (xs.length : ℚ) * (a * b) := by
  induction xs with
  | nil =>
    intro ys hlen
    have : ys = [] := List.length_eq_zero.mp (by simpa using hlen)
    subst this
    simp [sumProd, sumL]
  | cons x t ih =>
    intro ys hlen
    cases ys with
    | nil => simp at hlen
    | cons y u =>
      have hlen1 : u.length = t.length := by simpa using hlen
      have h := ih u hlen1
      simp only [List.zip_cons_cons, List.map_cons, List.sum_cons, sumProd, sumL,
        List.length_cons] at h ⊢
      rw [h]
      push_cast
      ring

/-- A sum of squares is nonnegative. -/
theorem cSq_sum_nonneg (xs : List ℚ) (a : ℚ) :
    0 ≤ (xs.map (fun x => (x - a) ^ 2)).sum := by
  apply List.sum_nonneg
  intro z hz
  obtain ⟨x, _, rfl⟩ := List.mem_map.mp hz
  positivity

/-- On nonempty data the x radicand is `n` times the centered sum of
squares. -/
theorem radX_eq_mul_cSumSq (xs : List ℚ) (h : xs.length ≠ 0) :
    radX xs = (xs.length : ℚ) * cSumSq xs := by
  have hn : ((xs.length : ℚ)) ≠ 0 := by exact_mod_cast h
  have hshift := cShift_sq xs (meanL xs)
  rw [cSumSq, hshift, radX, meanL]
  field_simp
  ring

/-- On nonempty paired data the R numerator is `n` times the centered
cross sum. -/
theorem rNum_eq_mul_cSumProd (xs ys : List ℚ) (hlen : ys.length = xs.length)
    (h : xs.length ≠ 0) :
    rNum xs ys = (xs.length : ℚ) * cSumProd xs ys := by
  have hn : ((xs.length : ℚ)) ≠ 0 := by exact_mod_cast h
  have hshift := cShift_prod xs (meanL xs) (meanL ys) ys hlen
  rw [cSumProd, hshift, rNum, meanL, meanL, hlen]
  field_simp
  ring

/-- Both radicands are nonnegative over exact arithmetic
(Cauchy-Schwarz); a negative radicand can only arise from
floating-point rounding. -/
theorem radX_nonneg (xs : List ℚ) : 0 ≤ radX xs := by
  rcases Nat.eq_zero_or_pos xs.length with h | h
  · have : xs = [] := List.length_eq_zero.mp h
    subst this
    simp [radX, sumSq, sumL]
  · have hlen : xs.length ≠ 0 := Nat.pos_iff_ne_zero.mp h
    rw [radX_eq_mul_cSumSq xs hlen]
    have h1 : (0 : ℚ) ≤ (xs.length : ℚ) := by positivity
    exact mul_nonneg h1 (cSq_sum_nonneg xs (meanL xs))

/-- Sum of a constant list. -/
theorem sumL_allEq (xs : List ℚ) (c : ℚ) (h : ∀ x ∈ xs, x = c) :
    sumL xs = (xs.length : ℚ) * c := by
  induction xs with
  | nil => simp [sumL]
  | cons x t ih =>
    have hx : x = c := h x (List.mem_cons_self x t)
    have ht := ih (fun z hz => h z (List.mem_cons_of_mem x hz))
    simp only [sumL, List.sum_cons, List.length_cons] at ht ⊢
    rw [hx, ht]
    push_cast
    ring

/-- Sum of squares of a constant list. -/
theorem sumSq_allEq (xs : List ℚ) (c : ℚ) (h : ∀ x ∈ xs, x = c) :
    sumSq xs = (xs.length : ℚ) * c ^ 2 := by
  induction xs with
  | nil => simp [sumSq]
  | cons x t ih =>
    have hx : x = c := h x (List.mem_cons_self x t)
    have ht := ih (fun z hz => h z (List.mem_cons_of_mem x hz))
    simp only [sumSq, List.map_cons, List.sum_cons, List.length_cons] at ht ⊢
    rw [hx, ht]
    push_cast
    ring

/-- If every x value equals `c` then the x radicand vanishes. -/
theorem radX_allEq (xs : List ℚ) (c : ℚ) (h : ∀ x ∈ xs, x = c) : radX xs = 0 := by
  rw [radX, sumL_allEq xs c h, sumSq_allEq xs c h]
  ring

/-! ## C2: the degenerate-data guard claim -/

/-- C2 (counterexample): on the point set (2,1),(2,3),(2,5), whose x
values are all identical, the R line of `crunch_data` raises an
uncaught `ZeroDivisionError` — not the `DegenerateData` report the
claim asserts. -/
theorem c2_counterexample :
    rLineOutcome [2, 2, 2] [1, 3, 5] = .pyError .zeroDivision ∧
      rLineOutcome [2, 2, 2] [1, 3, 5] ≠ .degenerateData := by
  have h : rLineOutcome [2, 2, 2] [1, 3, 5] = .pyError .zeroDivision := by
    norm_num [rLineOutcome, radX, radY, sumSq, sumL]
  refine ⟨h, by rw [h]; intro hc; exact ROutcome.noConfusion hc⟩

/-- C2 (amended): a point set with all x values identical makes the
radicand `n*Σx² - (Σx)²` zero, and both the R computation of
`crunch_data` and the forward-line computation of command code 6 then
fail with an uncaught `ZeroDivisionError` — there is no
`DegenerateData` report anywhere; more generally, whenever either
radicand is ≤ 0 the R computation raises a Python error (a math
domain error if negative, `ZeroDivisionError` if zero), never a
`DegenerateData` condition. -/
theorem c2_amended :
    (∀ (xs ys : List ℚ) (c : ℚ), xs ≠ [] → (∀ x ∈ xs, x = c) →
        rLineOutcome xs ys = .pyError .zeroDivision ∧
          line6Outcome xs ys = .pyError .zeroDivision) ∧
      ∀ xs ys : List ℚ, radX xs ≤ 0 ∨ radY ys ≤ 0 →
        ∃ e, rLineOutcome xs ys = .pyError e := by
  constructor
  · intro xs ys c _ hall
    have hx : radX xs = 0 := radX_allEq xs c hall
    have hy : (0 : ℚ) ≤ radY ys := radX_nonneg ys
    constructor
    · rw [rLineOutcome, if_neg, if_pos (Or.inl hx)]
      push_neg
      exact ⟨le_of_eq hx.symm, hy⟩
    · rw [line6Outcome, if_pos hx]
  · intro xs ys h
    rw [rLineOutcome]
    split_ifs with h1 h2
    · exact ⟨.mathDomain, rfl⟩
    · exact ⟨.zeroDivision, rfl⟩
    · push_neg at h1 h2
      exfalso
      rcases h with h | h
      · exact h2.1 (le_antisymm h h1.1)
      · exact h2.2 (le_antisymm h h1.2)

/-- C2 (witness): concrete instances of both halves of the amended
statement. -/
theorem c2_witness :
    (rLineOutcome [5, 5] [1, 2] = .pyError .zeroDivision ∧
      line6Outcome [5, 5] [1, 2] = .pyError .zeroDivision) ∧
      ∃ e, rLineOutcome [7, 7, 7] [3, 3, 3] = .pyError e :=
  ⟨c2_amended.1 [5, 5] [1, 2] 5 (by simp) (by simp),
   c2_amended.2 [7, 7, 7] [3, 3, 3] (Or.inl (by norm_num [radX, sumSq, sumL]))⟩

/-! ## C3: the two correlation formulas -/

/-- Over exact arithmetic the second R formula (command code 5, which
divides the centered cross sum by `(n-1)*sx*sy` with population
standard deviations) produces `n/(n-1)` times the first R formula, for
any non-degenerate data set with at least two points. -/
theorem Rformula2_scale (xs ys : List ℚ) (hn : 2 ≤ xs.length)
    (hlen : ys.length = xs.length) (hx : 0 < cSumSq xs) (hy : 0 < cSumSq ys) :
    Rformula2 xs ys = ((xs.length : ℝ) / ((xs.length : ℝ) - 1)) * Rformula1 xs ys := by
  have hne : xs.length ≠ 0 := by omega
  have hpos : 0 < xs.length := by omega
  have hnR : (0 : ℝ) < (xs.length : ℝ) := by exact_mod_cast hpos
  have hSxx : (0 : ℝ) < ((cSumSq xs : ℚ) : ℝ) := by exact_mod_cast hx
  have hSyy : (0 : ℝ) < ((cSumSq ys : ℚ) : ℝ) := by exact_mod_cast hy
  have hradX : ((radX xs : ℚ) : ℝ) = (xs.length : ℝ) * ((cSumSq xs : ℚ) : ℝ) := by
    rw [radX_eq_mul_cSumSq xs hne]
    push_cast
    ring
  have hradY : ((radY ys : ℚ) : ℝ) = (xs.length : ℝ) * ((cSumSq ys : ℚ) : ℝ) := by
    have h0 : radY ys = radX ys := rfl
    have h1 : ys.length ≠ 0 := by rw [hlen]; exact hne
    rw [h0, radX_eq_mul_cSumSq ys h1, hlen]
    push_cast
    ring
  have hrnum : ((rNum xs ys : ℚ) : ℝ)
      = (xs.length : ℝ) * ((cSumProd xs ys : ℚ) : ℝ) := by
    rw [rNum_eq_mul_cSumProd xs ys hlen hne]
    push_cast
    ring
  set nR := ((xs.length : ℕ) : ℝ) with hnRdef
  set A := ((cSumSq xs : ℚ) : ℝ) with hAdef
  set B := ((cSumSq ys : ℚ) : ℝ) with hBdef
  set C := ((cSumProd xs ys : ℚ) : ℝ) with hCdef
  have hs : Real.sqrt nR * Real.sqrt nR = nR := Real.mul_self_sqrt (le_of_lt hnR)
  have hsA : Real.sqrt A ≠ 0 := ne_of_gt (Real.sqrt_pos.mpr hSxx)
  have hsB : Real.sqrt B ≠ 0 := ne_of_gt (Real.sqrt_pos.mpr hSyy)
  have h2R : (2 : ℝ) ≤ nR := by rw [hnRdef]; exact_mod_cast hn
  have hm1 : nR - 1 ≠ 0 := by
    intro h0
    rw [sub_eq_zero] at h0
    linarith
  have e1 : Rformula1 xs ys = C / (Real.sqrt A * Real.sqrt B) := by
    rw [Rformula1, hrnum, hradX, hradY, Real.sqrt_mul (le_of_lt hnR) A,
      Real.sqrt_mul (le_of_lt hnR) B,
      show Real.sqrt nR * Real.sqrt A * (Real.sqrt nR * Real.sqrt B)
          = Real.sqrt nR * Real.sqrt nR * (Real.sqrt A * Real.sqrt B) by ring,
      hs]
    rw [mul_div_mul_left C (Real.sqrt A * Real.sqrt B) (ne_of_gt hnR)]
  have e2 : Rformula2 xs ys = C / ((nR - 1) * (Real.sqrt A * Real.sqrt B / nR)) := by
    rw [Rformula2, sdevPop, sdevPop, hlen]
    rw [Real.sqrt_div (le_of_lt hSxx) nR, Real.sqrt_div (le_of_lt hSyy) nR,
      mul_assoc, div_mul_div_comm, hs]
  rw [e1, e2]
  field_simp
  ring

/-- C3 (amended): for every point set with n ≥ 3 and non-degenerate
data (positive centered sums of squares in both coordinates), the
alternate formula of command code 5 computes exactly
`(n/(n-1)) · R1` rather than `R1`: the two formulas disagree by the
factor n/(n-1) on every such data set with nonzero correlation. -/
theorem c3_amended (xs ys : List ℚ) (hn : 3 ≤ xs.length)
    (hlen : ys.length = xs.length) (hx : 0 < cSumSq xs) (hy : 0 < cSumSq ys) :
    Rformula2 xs ys = ((xs.length : ℝ) / ((xs.length : ℝ) - 1)) * Rformula1 xs ys :=
  Rformula2_scale xs ys (by omega) hlen hx hy

/-- C3 (counterexample): at the non-collinear, non-degenerate point
set (1,1),(2,2),(3,2),(4,3) (n = 4) the two R computations differ by
the factor 4/3, far beyond the claimed 1e-9 relative tolerance. -/
theorem c3_counterexample :
    ¬ |Rformula1 [1, 2, 3, 4] [1, 2, 2, 3] - Rformula2 [1, 2, 3, 4] [1, 2, 2, 3]|
        ≤ 1 / 1000000000 * |Rformula1 [1, 2, 3, 4] [1, 2, 2, 3]| := by
  have hscale := Rformula2_scale [1, 2, 3, 4] [1, 2, 2, 3] (by norm_num) rfl
    (by norm_num [cSumSq, meanL, sumL]) (by norm_num [cSumSq, meanL, sumL])
  have hlen4 : ((([1, 2, 3, 4] : List ℚ)).length : ℝ) = 4 := by norm_num
  rw [hlen4] at hscale
  have h1 : rNum [1, 2, 3, 4] [1, 2, 2, 3] = 12 := by norm_num [rNum, sumProd, sumL]
  have h2 : radX [1, 2, 3, 4] = 20 := by norm_num [radX, sumSq, sumL]
  have h3 : radY [1, 2, 2, 3] = 8 := by norm_num [radY, sumSq, sumL]
  have hpos : 0 < Rformula1 [1, 2, 3, 4] [1, 2, 2, 3] := by
    rw [Rformula1, h1, h2, h3]
    push_cast
    positivity
  intro hcon
  rw [hscale, abs_of_pos hpos,
    show Rformula1 [1, 2, 3, 4] [1, 2, 2, 3]
        - 4 / (4 - 1) * Rformula1 [1, 2, 3, 4] [1, 2, 2, 3]
      = -(1 / 3 * Rformula1 [1, 2, 3, 4] [1, 2, 2, 3]) by ring,
    abs_neg, abs_of_pos (mul_pos (by norm_num) hpos)] at hcon
  nlinarith [hpos]

/-- C3 (witness): the amended relation instantiated at the concrete
point set (1,1),(2,2),(3,2),(4,3). -/
theorem c3_witness :
    Rformula2 [1, 2, 3, 4] [1, 2, 2, 3]
      = ((([1, 2, 3, 4] : List ℚ).length : ℝ)
            / ((([1, 2, 3, 4] : List ℚ).length : ℝ) - 1))
          * Rformula1 [1, 2, 3, 4] [1, 2, 2, 3] :=
  c3_amended [1, 2, 3, 4] [1, 2, 2, 3] (by norm_num) rfl
    (by norm_num [cSumSq, meanL, sumL]) (by norm_num [cSumSq, meanL, sumL])

/-! ## C4: the reverse regression line -/

/-- C4 (code bug): at the points (1,1),(2,2),(3,2),(4,3) the source
reverse line (command code 7) computes intercept 57 and slope 3/2,
while the symmetric x-on-y least-squares formula the claim states —
using Σy² where the source line 1588 mistakenly wrote (Σy)² — gives
intercept -1/2, which matches the genuine least-squares value
meanx - rev_slope * meany.  The degenerate guard itself behaves as
claimed (the else branch requires denom ≠ 0), but the intercept the
source computes is not the x-on-y least-squares intercept. -/
theorem c4_code_bug :
    reverseLine [1, 2, 3, 4] [1, 2, 2, 3] = some (57, 3 / 2) ∧
      specRevIntercept [1, 2, 3, 4] [1, 2, 2, 3] = -(1 / 2) ∧
      specRevIntercept [1, 2, 3, 4] [1, 2, 2, 3]
        = meanL [1, 2, 3, 4] - 3 / 2 * meanL [1, 2, 2, 3] := by
  refine ⟨?_, ?_, ?_⟩
  · norm_num [reverseLine, revDenom, radY, sumSq, sumL, sumProd]
  · norm_num [specRevIntercept, revDenom, radY, sumSq, sumL, sumProd]
  · norm_num [specRevIntercept, revDenom, radY, sumSq, sumL, sumProd, meanL]

/-! ## C8 and C10: cache invalidation by point correction -/

/-- Setting an index to the value it already holds leaves the list
unchanged. -/
theorem set_getD_eq_self (l : List ℚ) (i : ℕ) (a : ℚ) (hi : i < l.length)
    (h : l.getD i 0 = a) : l.set i a = l := by
  apply List.ext_getElem (by simp)
  intro j hj1 hj2
  rcases eq_or_ne j i with rfl | hne
  · rw [List.getElem_set_self]
    rw [List.getD_eq_getElem l 0 hj2] at h
    exact h.symm
  · exact List.getElem_set_ne hne.symm hj1

/-- A correction that changes at least one coordinate yields exactly
the state with the point overwritten and both flags cleared. -/
theorem correctPoint_of_ne (st : RegState) (k : ℕ) (x y : ℚ)
    (hix : k - 1 < st.xs.length) (hiy : k - 1 < st.ys.length)
    (hdiff : x ≠ st.xs.getD (k - 1) 0 ∨ y ≠ st.ys.getD (k - 1) 0) :
    correctPoint st k x y =
      { st with
        xs := st.xs.set (k - 1) x
        ys := st.ys.set (k - 1) y
        dataCrunched := false
        dataFromFile := false } := by
  simp only [correctPoint]
  by_cases hx : st.xs.getD (k - 1) 0 ≠ x
  · rw [if_pos hx]
    by_cases hy : st.ys.getD (k - 1) 0 ≠ y
    · rw [if_pos hy]
    · rw [if_neg hy]
      push_neg at hy
      rw [set_getD_eq_self st.ys (k - 1) y hiy hy]
  · rw [if_neg hx]
    push_neg at hx
    by_cases hy : st.ys.getD (k - 1) 0 ≠ y
    · rw [if_pos hy, set_getD_eq_self st.xs (k - 1) x hix hx]
    · push_neg at hy
      rcases hdiff with h | h
      · exact absurd hx.symm h
      · exact absurd hy.symm h

/-- C8: after a point correction that actually changes a coordinate,
the `data_crunched` flag is cleared and every subsequent statistic
read — R via command code 4, the forward line via command code 6, the
full dump (R and SE) via command code 7 — is computed from the
corrected point lists, never from the stale cached values. -/
theorem c8_invalidation (st : RegState) (k : ℕ) (x y : ℚ)
    (hk1 : 1 ≤ k) (hk2 : k ≤ st.xs.length) (hlen : st.ys.length = st.xs.length)
    (hdiff : x ≠ st.xs.getD (k - 1) 0 ∨ y ≠ st.ys.getD (k - 1) 0) :
    (correctPoint st k x y).dataCrunched = false ∧
      (readR4 (correctPoint st k x y)).map (fun p => p.1)
        = some (Rformula1 (st.xs.set (k - 1) x) (st.ys.set (k - 1) y)) ∧
      (readLine6 (correctPoint st k x y)).map (fun p => (p.1, p.2.1))
        = some (interceptQ (st.xs.set (k - 1) x) (st.ys.set (k - 1) y),
            slopeQ (st.xs.set (k - 1) x) (st.ys.set (k - 1) y)) ∧
      (dump7 (correctPoint st k x y)).map (fun s => s.rCache)
        = some (Rformula1 (st.xs.set (k - 1) x) (st.ys.set (k - 1) y)) ∧
      (dump7 (correctPoint st k x y)).map (fun s => s.seCache)
        = some (seR (st.xs.set (k - 1) x) (st.ys.set (k - 1) y)) := by
  have hix : k - 1 < st.xs.length := by omega
  have hiy : k - 1 < st.ys.length := by omega
  have hcp := correctPoint_of_ne st k x y hix hiy hdiff
  have hlen0 : ¬ (st.xs.set (k - 1) x).length = 0 := by
    rw [List.length_set]
    omega
  have hxsne : ¬ st.xs = [] := by
    intro h0
    rw [h0] at hk2
    simp at hk2
    omega
  rw [hcp]
  refine ⟨rfl, ?_, ?_, ?_, ?_⟩
  · rw [readR4]
    simp [hlen0, hxsne]
  · rw [readLine6]
    simp [hlen0, hxsne]
  · rw [dump7]
    simp [hlen0, hxsne, crunchState]
  · rw [dump7]
    simp [hlen0, hxsne, crunchState]

/-- C8 (witness): the invalidation facts instantiated at a session
whose cache flag is set and whose cached values are stale, correcting
point 1 from (1,1) to (5,1). -/
theorem c8_witness :
    (correctPoint ⟨[1, 2], [1, 3], true, true, 0, 0, 0, 0⟩ 1 5 1).dataCrunched = false ∧
      (readR4 (correctPoint ⟨[1, 2], [1, 3], true, true, 0, 0, 0, 0⟩ 1 5 1)).map
          (fun p => p.1)
        = some (Rformula1 (([1, 2] : List ℚ).set 0 5) (([1, 3] : List ℚ).set 0 1)) ∧
      (readLine6 (correctPoint ⟨[1, 2], [1, 3], true, true, 0, 0, 0, 0⟩ 1 5 1)).map
          (fun p => (p.1, p.2.1))
        = some (interceptQ (([1, 2] : List ℚ).set 0 5) (([1, 3] : List ℚ).set 0 1),
            slopeQ (([1, 2] : List ℚ).set 0 5) (([1, 3] : List ℚ).set 0 1)) ∧
      (dump7 (correctPoint ⟨[1, 2], [1, 3], true, true, 0, 0, 0, 0⟩ 1 5 1)).map
          (fun s => s.rCache)
        = some (Rformula1 (([1, 2] : List ℚ).set 0 5) (([1, 3] : List ℚ).set 0 1)) ∧
      (dump7 (correctPoint ⟨[1, 2], [1, 3], true, true, 0, 0, 0, 0⟩ 1 5 1)).map
          (fun s => s.seCache)
        = some (seR (([1, 2] : List ℚ).set 0 5) (([1, 3] : List ℚ).set 0 1)) :=
  c8_invalidation ⟨[1, 2], [1, 3], true, true, 0, 0, 0, 0⟩ 1 5 1 (by norm_num)
    (by norm_num) rfl (Or.inl (by norm_num))

/-- C10: the point-correction command clears the cached-statistics
flag and the data-from-file flag only when the entered coordinate
differs from the stored one; re-entering identical values leaves the
whole session state unchanged. -/
theorem c10_frame (st : RegState) (k : ℕ) (x y : ℚ) :
    (x = st.xs.getD (k - 1) 0 ∧ y = st.ys.getD (k - 1) 0 →
        correctPoint st k x y = st) ∧
      (correctPoint st k x y).dataCrunched
        = (if x = st.xs.getD (k - 1) 0 ∧ y = st.ys.getD (k - 1) 0
            then st.dataCrunched else false) ∧
      (correctPoint st k x y).dataFromFile
        = (if x = st.xs.getD (k - 1) 0 ∧ y = st.ys.getD (k - 1) 0
            then st.dataFromFile else false) := by
  by_cases hx : st.xs.getD (k - 1) 0 = x
  · by_cases hy : st.ys.getD (k - 1) 0 = y
    · have hcp : correctPoint st k x y = st := by
        simp only [correctPoint]
        rw [if_neg (not_not_intro hx)]
        exact if_neg (not_not_intro hy)
      have hcond : x = st.xs.getD (k - 1) 0 ∧ y = st.ys.getD (k - 1) 0 :=
        ⟨hx.symm, hy.symm⟩
      rw [hcp, if_pos hcond, if_pos hcond]
      exact ⟨fun _ => rfl, rfl, rfl⟩
    · have hcp : correctPoint st k x y =
          { st with
            ys := st.ys.set (k - 1) y
            dataCrunched := false
            dataFromFile := false } := by
        simp only [correctPoint]
        rw [if_neg (not_not_intro hx)]
        exact if_pos hy
      have hcond : ¬ (x = st.xs.getD (k - 1) 0 ∧ y = st.ys.getD (k - 1) 0) :=
        fun h => hy h.2.symm
      rw [hcp, if_neg hcond, if_neg hcond]
      exact ⟨fun h => absurd h hcond, rfl, rfl⟩
  · have hcond : ¬ (x = st.xs.getD (k - 1) 0 ∧ y = st.ys.getD (k - 1) 0) :=
      fun h => hx h.1.symm
    by_cases hy : st.ys.getD (k - 1) 0 = y
    · have hcp : correctPoint st k x y =
          { st with
            xs := st.xs.set (k - 1) x
            dataCrunched := false
            dataFromFile := false } := by
        simp only [correctPoint]
        rw [if_pos hx]
        exact if_neg (not_not_intro hy)
      rw [hcp, if_neg hcond, if_neg hcond]
      exact ⟨fun h => absurd h hcond, rfl, rfl⟩
    · have hcp : correctPoint st k x y =
          { st with
            xs := st.xs.set (k - 1) x
            ys := st.ys.set (k - 1) y
            dataCrunched := false
            dataFromFile := false } := by
        simp only [correctPoint]
        rw [if_pos hx]
        exact if_pos hy
      rw [hcp, if_neg hcond, if_neg hcond]
      exact ⟨fun h => absurd h hcond, rfl, rfl⟩

/-- C10 (witness): re-entering the stored values (2,4) for point 2
leaves the state — including the set cache flag and data-from-file
flag — untouched. -/
theorem c10_witness :
    correctPoint ⟨[1, 2], [3, 4], true, true, 0, 5, 6, 0⟩ 2 2 4
      = ⟨[1, 2], [3, 4], true, true, 0, 5, 6, 0⟩ :=
  (c10_frame ⟨[1, 2], [3, 4], true, true, 0, 5, 6, 0⟩ 2 2 4).1 ⟨by simp, by simp⟩

/-! ## C9: CSV export/import round trip -/

/-- Every symbol of a serialized natural number is a digit. -/
theorem mem_natSyms_digit {s : Sym} {m : ℕ} (h : s ∈ natSyms m) :
    ∃ d, s = Sym.digit d := by
  simp only [natSyms, List.mem_map] at h
  obtain ⟨a, _, rfl⟩ := h
  exact ⟨_, rfl⟩

/-- Big-endian digit parsing inverts serialization, for any initial
accumulator. -/
theorem parse_natSyms_aux (L : List ℕ) (hL : ∀ d ∈ L, d < 10) :
    ∀ a : ℕ, (L.reverse.map symOfDigit).foldl stepDigit (some a)
      = some (a * 10 ^ L.length + Nat.ofDigits 10 L) := by
  induction L with
  | nil => intro a; simp [Nat.ofDigits]
  | cons d t ih =>
    intro a
    have hd : d < 10 := hL d (List.mem_cons_self d t)
    have ht : ∀ z ∈ t, z < 10 := fun z hz => hL z (List.mem_cons_of_mem d hz)
    rw [List.reverse_cons, List.map_append, List.foldl_append, ih ht a]
    simp only [List.map_cons, List.map_nil, List.foldl_cons, List.foldl_nil,
      stepDigit, symOfDigit, Option.bind_eq_bind, Option.some_bind,
      Nat.mod_eq_of_lt hd, Nat.ofDigits_cons, List.length_cons]
    congr 1
    ring

/-- Parsing a serialized natural number returns it. -/
theorem parse_natSyms (m : ℕ) : parseNatSyms (natSyms m) = some m := by
  have h := parse_natSyms_aux (Nat.digits 10 m)
    (fun d hd => Nat.digits_lt_base (by norm_num) hd) 0
  simpa [parseNatSyms, natSyms, Nat.ofDigits_digits] using h

/-- Splitting at the first occurrence of a separator absent from the
prefix recovers both halves. -/
theorem splitAtFirst_append (t : Sym) (A B : List Sym) (hA : t ∉ A) :
    splitAtFirst t (A ++ t :: B) = some (A, B) := by
  induction A with
  | nil => simp [splitAtFirst]
  | cons a rest ih =>
    have ha : ¬ a = t := fun h => hA (h ▸ List.mem_cons_self a rest)
    have hrest : t ∉ rest := fun h => hA (List.mem_cons_of_mem a h)
    simp [splitAtFirst, ha, ih hrest]

/-- Every symbol of a serialized rational is a sign, a separator or a
digit. -/
theorem mem_ratSyms {s : Sym} {q : ℚ} (h : s ∈ ratSyms q) :
    s = Sym.dash ∨ s = Sym.slash ∨ ∃ d, s = Sym.digit d := by
  rw [ratSyms] at h
  rcases List.mem_append.mp h with h1 | h2
  · rcases List.mem_append.mp h1 with h3 | h4
    · by_cases hq : q < 0
      · rw [if_pos hq] at h3
        exact Or.inl (List.mem_singleton.mp h3)
      · rw [if_neg hq] at h3
        exact absurd h3 (List.not_mem_nil s)
    · exact Or.inr (Or.inr (mem_natSyms_digit h4))
  · rcases List.mem_cons.mp h2 with h5 | h6
    · exact Or.inr (Or.inl h5)
    · exact Or.inr (Or.inr (mem_natSyms_digit h6))

/-- Serialized rationals contain no comma. -/
theorem comma_not_mem_ratSyms (q : ℚ) : Sym.comma ∉ ratSyms q := by
  intro h
  rcases mem_ratSyms h with h | h | ⟨d, h⟩ <;> exact Sym.noConfusion h

/-- Serialized rationals contain no `x` letter. -/
theorem xch_not_mem_ratSyms (q : ℚ) : Sym.xch ∉ ratSyms q := by
  intro h
  rcases mem_ratSyms h with h | h | ⟨d, h⟩ <;> exact Sym.noConfusion h

/-- Serialized natural numbers contain no slash. -/
theorem slash_not_mem_natSyms (m : ℕ) : Sym.slash ∉ natSyms m := by
  intro h
  obtain ⟨d, hd⟩ := mem_natSyms_digit h
  exact Sym.noConfusion hd

/-- Parsing an unsigned serialized fraction recovers the quotient. -/
theorem parsePos_roundtrip (a b : ℕ) :
    parsePosRat (natSyms a ++ Sym.slash :: natSyms b) = some ((a : ℚ) / (b : ℚ)) := by
  rw [parsePosRat, splitAtFirst_append Sym.slash (natSyms a) (natSyms b)
    (slash_not_mem_natSyms a)]
  simp [parse_natSyms]

/-- Parsing a serialized rational recovers it exactly (the model of
`float(str(x)) == x`). -/
theorem parseRat_ratSyms (q : ℚ) : parseRatSyms (ratSyms q) = some q := by
  by_cases hq : q < 0
  · have hform : ratSyms q
        = Sym.dash :: (natSyms q.num.natAbs ++ Sym.slash :: natSyms q.den) := by
      simp [ratSyms, hq]
    have hnum : q.num < 0 := by
      by_contra hh
      exact absurd (Rat.num_nonneg.mp (not_lt.mp hh)) (not_le.mpr hq)
    rw [hform]
    show (parsePosRat (natSyms q.num.natAbs ++ Sym.slash :: natSyms q.den)).map
        (fun z => -z) = some q
    rw [parsePos_roundtrip]
    simp only [Option.map_some']
    congr 1
    have h1 : (q.num.natAbs : ℤ) = -q.num := by
      rw [← Int.natAbs_neg]
      exact Int.natAbs_of_nonneg (by linarith)
    have habs : ((q.num.natAbs : ℕ) : ℚ) = -(q.num : ℚ) := by
      rw [← Int.cast_natCast q.num.natAbs, h1, Int.cast_neg]
    rw [habs, neg_div, neg_neg]
    exact Rat.num_div_den q
  · have hform : ratSyms q = natSyms q.num.natAbs ++ Sym.slash :: natSyms q.den := by
      simp [ratSyms, hq]
    have hnum : 0 ≤ q.num := Rat.num_nonneg.mpr (not_lt.mp hq)
    have hparse : parseRatSyms (natSyms q.num.natAbs ++ Sym.slash :: natSyms q.den)
        = parsePosRat (natSyms q.num.natAbs ++ Sym.slash :: natSyms q.den) := by
      cases hnn : natSyms q.num.natAbs with
      | nil =>
        rw [List.nil_append]
        simp [parseRatSyms]
      | cons s0 t0 =>
        have hs0 : s0 ∈ natSyms q.num.natAbs := by
          rw [hnn]
          exact List.mem_cons_self s0 t0
        obtain ⟨d, hd⟩ := mem_natSyms_digit hs0
        subst hd
        rw [List.cons_append]
        simp [parseRatSyms]
    rw [hform, hparse, parsePos_roundtrip]
    congr 1
    have h1 : (q.num.natAbs : ℤ) = q.num := Int.natAbs_of_nonneg hnum
    have habs : ((q.num.natAbs : ℕ) : ℚ) = (q.num : ℚ) := by
      rw [← Int.cast_natCast q.num.natAbs, h1]
    rw [habs]
    exact Rat.num_div_den q

/-- The first comma of a data line sits exactly between the two
serialized coordinates. -/
theorem splitAtFirst_pointLine (x y : ℚ) :
    splitAtFirst Sym.comma (pointLine x y) = some (ratSyms x, ratSyms y) :=
  splitAtFirst_append Sym.comma (ratSyms x) (ratSyms y) (comma_not_mem_ratSyms x)

/-- Every exported data line contains a comma. -/
theorem comma_mem_pointLine (x y : ℚ) : Sym.comma ∈ pointLine x y := by
  rw [pointLine]
  exact List.mem_append.mpr (Or.inr (List.mem_cons_self _ _))

/-- No exported data line contains the letter `x`, so none is ever
mistaken for a header. -/
theorem xch_not_mem_pointLine (x y : ℚ) : Sym.xch ∉ pointLine x y := by
  intro h
  rw [pointLine] at h
  rcases List.mem_append.mp h with h1 | h2
  · exact xch_not_mem_ratSyms x h1
  · rcases List.mem_cons.mp h2 with h3 | h4
    · exact Sym.noConfusion h3
    · exact xch_not_mem_ratSyms y h4

/-- Importing the exported data lines recovers the points in order,
for any running counter value. -/
theorem importLines_points (xs : List ℚ) :
    ∀ (ys : List ℚ), ys.length = xs.length → ∀ k : ℕ,
      importLines ((xs.zip ys).map (fun p => pointLine p.1 p.2)) k
        = some (xs, ys, k + xs.length) := by
  induction xs with
  | nil =>
    intro ys hlen k
    have : ys = [] := List.length_eq_zero.mp (by simpa using hlen)
    subst this
    simp [importLines]
  | cons x t ih =>
    intro ys hlen k
    cases ys with
    | nil => simp at hlen
    | cons y u =>
      have hlen1 : u.length = t.length := by simpa using hlen
      have hcomma := comma_mem_pointLine x y
      have hxch := xch_not_mem_pointLine x y
      rw [List.zip_cons_cons, List.map_cons]
      simp only [importLines]
      rw [if_neg (not_not_intro hcomma),
        if_neg (fun h : k = 0 ∧ Sym.xch ∈ pointLine x y => hxch h.2),
        splitAtFirst_pointLine]
      simp only [Option.some_bind, parseRat_ratSyms]
      rw [ih u hlen1 (k + 1)]
      simp only [Option.map_some', List.length_cons]
      have harith : k + 1 + t.length = k + (t.length + 1) := by omega
      rw [harith]

/-- C9: exporting a point set to the tabular CSV format (header line
followed by one x,y line per point, appended to a fresh target) and
re-importing that file yields exactly the same ordered lists of x and
y values — the header is skipped, no point is lost or added, and the
resulting count equals the number of points. -/
theorem c9_roundtrip (xs ys : List ℚ) (hlen : ys.length = xs.length) :
    importCsv (exportCsv xs ys) = some (xs, ys, xs.length) := by
  rw [importCsv, exportCsv]
  simp only [importLines]
  rw [if_neg (not_not_intro (by decide : Sym.comma ∈ headerLine)),
    if_pos (⟨trivial, by decide⟩ : True ∧ Sym.xch ∈ headerLine),
    importLines_points xs ys hlen 0]
  simp

/-- C9 (witness): a concrete two-point set with a negative and two
fractional coordinates survives the round trip unchanged. -/
theorem c9_witness :
    importCsv (exportCsv [1 / 2, 3] [-2, 5 / 4])
      = some ([1 / 2, 3], [-2, 5 / 4], 2) :=
  c9_roundtrip [1 / 2, 3] [-2, 5 / 4] rfl

/-! ## C1: deferred resumption across the helpers -/

/-- C1 (code bug): in the chi-square helper the deferred command is
lost.  The session below enters command 2 (equal expected
frequencies) before any observations; the dispatcher records the
deferral and redirects to command 1; the user then enters N = 2 with
observed frequencies 3 and 4 and no optional total, supplying exactly
the prerequisite data; the branch at source lines 570-572 restores
`code = future_code` and clears the slot, but — lacking a `continue`
— falls through to the next-code prompt at line 745, which overwrites
the restored code; the user takes the default (0).  The session exits
with `data_entered` still false and the expected frequencies still
the placeholder zeros: the deferred command 2 never executed, even
though the claim requires it to execute exactly once without the user
re-entering its code. -/
theorem c1_chi2_resumption_lost :
    runChi2Helper zeroLib 10
        [.int 4, .int 2, .int 2, .int 3, .int 4, .yn false, .int 0]
      = .exited ⟨4, 0, 2, 1, 7, [3, 4], [0, 0], [0, 0], [0, 0], 0, 0, false, []⟩ := by
  with_unfolding_all rfl

/-! ## C5: process-fatal errors -/

/-- C5 (code bug): the normal-distribution helper crashes.  With the
distribution parameters set (code 2 with u = 0, s = 1), selecting
command code 8 (interval probability) reaches source line 818, which
calls the undefined name `get_user_float_inputinput`; the resulting
`NameError` is caught nowhere and terminates the process — the claim
that only the explicit exit command (code 0) can end a session is
violated.  (Lines 862 (`NONE`) and 910 (`Z_low`) make codes 12 and 14
equally fatal.) -/
theorem c5_normal_crash :
    runNormalHelper zeroLib 10 [2, 0, 1, 8] = .fatal .nameError := by
  with_unfolding_all rfl

/-! ## C6: degenerate-data reporting and state mutation -/

/-- C6 (counterexample): chi-square command 3 with observations [5,5]
(total 10) and entered probabilities 0.4, 0.4 (sum 0.8 ≠ 1) reports
the offending total and leaves `data_entered` false — but the
per-category `chance`, `expected` and `z2` arrays and the accumulated
chi-square/Yates statistics have already been overwritten: the
claim that the operation aborts without mutating any stored session
state is false. -/
theorem c6_counterexample :
    chi2Iter zeroLib ⟨4, 0, 2, 1, 10, [5, 5], [0, 0], [0, 0], [0, 0], 0, 0, false, []⟩ 3
        [.yn false, .float (2 / 5), .float (2 / 5), .int 0]
      = .next ⟨4, 0, 2, 1, 10, [5, 5], [4, 4], [2 / 5, 2 / 5], [1 / 4, 1 / 4], 1 / 2,
          1 / 8, false, [.probSumReport (4 / 5)]⟩ 0 [] ∧
      ¬ (Chi2State.expected ⟨4, 0, 2, 1, 10, [5, 5], [4, 4], [2 / 5, 2 / 5],
            [1 / 4, 1 / 4], 1 / 2, 1 / 8, false, [.probSumReport (4 / 5)]⟩
          = Chi2State.expected ⟨4, 0, 2, 1, 10, [5, 5], [0, 0], [0, 0], [0, 0], 0, 0,
            false, []⟩) := by
  constructor
  · with_unfolding_all rfl
  · with_unfolding_all decide

/-- Consuming exactly the float prompts of a probability list recovers
the list and the remaining input stream. -/
theorem takeFloats_append (ps : List ℚ) (rest : List Inp) :
    takeFloats ps.length (ps.map Inp.float ++ rest) = some (ps, rest) := by
  induction ps with
  | nil => simp [takeFloats]
  | cons p t ih => simp [takeFloats, takeFloat, ih]

/-- C6 (amended): when chi-square command 3 (expected probabilities)
detects probabilities not summing to 1, it reports the offending
total to the output sink, does not set the `data_entered` flag, and
the session continues at the next command prompt — but the
per-category `chance` and `expected` arrays (and with them the
accumulated statistics) have already been overwritten before the
check: the operation does mutate stored session state on its failing
path. -/
theorem c6_amended (lib : StatLib) (st : Chi2State) (ps : List ℚ) (c : ℤ)
    (rest : List Inp) (htot : ¬ st.total = 0) (hN : st.N = ps.length)
    (hbad : ps.sum > 1001 / 1000 ∨ ps.sum < 999 / 1000) :
    ∃ st1 : Chi2State,
      chi2Iter lib st 3 (.yn false :: (ps.map Inp.float ++ .int c :: rest))
          = .next st1 c rest ∧
        st1.dataEntered = st.dataEntered ∧
        st1.out = st.out ++ [.probSumReport ps.sum] ∧
        st1.chance = ps ∧
        st1.expected = ps.map (fun p => p * (st.total : ℚ)) ∧
        st1.total = st.total ∧
        st1.observed = st.observed := by
  refine ⟨{ st with
      chance := ps
      expected := ps.map (fun p => p * (st.total : ℚ))
      z2 := chiTerms st.observed (ps.map (fun p => p * (st.total : ℚ)))
      chiSquared := (chiTerms st.observed (ps.map (fun p => p * (st.total : ℚ)))).sum
      yates := (yatesTerms st.observed (ps.map (fun p => p * (st.total : ℚ)))).sum
      out := st.out ++ [.probSumReport ps.sum] }, ?_, rfl, rfl, rfl, rfl, rfl, rfl⟩
  norm_num [chi2Iter, htot, takeYn, hN, takeFloats_append, hbad, finishI]

/-- C6 (witness): the amended statement instantiated at the concrete
failing session of the counterexample. -/
theorem c6_witness :
    ∃ st1 : Chi2State,
      chi2Iter zeroLib ⟨4, 0, 2, 1, 10, [5, 5], [0, 0], [0, 0], [0, 0], 0, 0, false, []⟩ 3
          (.yn false :: (([2 / 5, 2 / 5] : List ℚ).map Inp.float ++ .int 0 :: []))
          = .next st1 0 [] ∧
        st1.dataEntered
          = Chi2State.dataEntered
              ⟨4, 0, 2, 1, 10, [5, 5], [0, 0], [0, 0], [0, 0], 0, 0, false, []⟩ ∧
        st1.out = [] ++ [.probSumReport (([2 / 5, 2 / 5] : List ℚ).sum)] ∧
        st1.chance = [2 / 5, 2 / 5] ∧
        st1.expected = ([2 / 5, 2 / 5] : List ℚ).map (fun p => p * ((10 : ℤ) : ℚ)) ∧
        st1.total = 10 ∧
        st1.observed = [5, 5] :=
  c6_amended zeroLib ⟨4, 0, 2, 1, 10, [5, 5], [0, 0], [0, 0], [0, 0], 0, 0, false, []⟩
    [2 / 5, 2 / 5] 0 [] (by norm_num) rfl (Or.inr (by norm_num))

/-! ## C7: blocked operations and the next code to execute -/

/-- C7 (counterexample): in the diff-of-proportions helper a blocked
operation (code 1 with parameters unset) records itself in the
deferred slot but then PROMPTS the user for the next code (source
line 400): the next code executed is whatever the user enters (8 in
the first run, 5 in the second), not the prerequisite code set
directly — contradicting the claim that the dispatcher sets the next
code to the prerequisite without prompting. -/
theorem c7_counterexample :
    diffIter zeroLib (diffInit 4) 1 [8] = .next { diffInit 4 with future := 1 } 8 [] ∧
      diffIter zeroLib (diffInit 4) 1 [5] = .next { diffInit 4 with future := 1 } 5 [] := by
  constructor
  · with_unfolding_all rfl
  · with_unfolding_all rfl

/-- C7 (amended): the normal helper (blocked codes 6-13 redirect to
setup code 2) and the chi-square helper (codes 2-5 without
observations redirect to code 1; code 6 without complete data
redirects to code 5) record the original code in the deferred slot
and set the next code to execute directly, consuming no input; the
diff-of-proportions helper records the slot but obtains the next code
from a fresh prompt (the consumed input becomes the next code). -/
theorem c7_amended :
    (∀ (lib : StatLib) (st : NormalState) (c : ℚ) (inputs : List ℚ),
        st.meanSet = false →
        (c = 6 ∨ c = 7 ∨ c = 8 ∨ c = 9 ∨ c = 10 ∨ c = 11 ∨ c = 12 ∨ c = 13) →
        normalIter lib st c inputs = .next { st with future := c } 2 inputs) ∧
      (∀ (lib : StatLib) (st : Chi2State) (c : ℤ) (inputs : List Inp),
        st.total = 0 → (c = 2 ∨ c = 3 ∨ c = 4 ∨ c = 5) →
        chi2Iter lib st c inputs = .next { st with future := c } 1 inputs) ∧
      (∀ (lib : StatLib) (st : Chi2State) (inputs : List Inp),
        st.dataEntered = false →
        chi2Iter lib st 6 inputs = .next { st with future := 6 } 5 inputs) ∧
      ∀ (lib : StatLib) (st : DiffState) (c q : ℚ) (rest : List ℚ),
        st.parmsSet = false → (c = 1 ∨ c = 2 ∨ c = 5) →
        diffIter lib st c (q :: rest) = .next { st with future := c } q rest := by
  refine ⟨?_, ?_, ?_, ?_⟩
  · intro lib st c inputs hm hc
    rcases hc with rfl | rfl | rfl | rfl | rfl | rfl | rfl | rfl <;>
      norm_num [normalIter, hm]
  · intro lib st c inputs ht hc
    rcases hc with rfl | rfl | rfl | rfl <;>
      norm_num [chi2Iter, ht]
  · intro lib st inputs hd
    norm_num [chi2Iter, hd]
  · intro lib st c q rest hp hc
    rcases hc with rfl | rfl | rfl <;>
      norm_num [diffIter, hp]

/-- C7 (witness): the direct-redirect facts instantiated for each
helper, plus the recorded slot in the prompting diff-of-proportions
helper. -/
theorem c7_witness :
    normalIter zeroLib normalInit 6 [] = .next { normalInit with future := 6 } 2 [] ∧
      chi2Iter zeroLib (chi2Init 4) 2 [] = .next { chi2Init 4 with future := 2 } 1 [] ∧
      chi2Iter zeroLib (chi2Init 4) 6 [] = .next { chi2Init 4 with future := 6 } 5 [] ∧
      diffIter zeroLib (diffInit 4) 2 [3] = .next { diffInit 4 with future := 2 } 3 [] :=
  ⟨c7_amended.1 zeroLib normalInit 6 [] rfl (Or.inl rfl),
   c7_amended.2.1 zeroLib (chi2Init 4) 2 [] rfl (Or.inl rfl),
   c7_amended.2.2.1 zeroLib (chi2Init 4) [] rfl,
   c7_amended.2.2.2 zeroLib (diffInit 4) 2 3 [] rfl (Or.inr (Or.inl rfl))⟩

end StatHelper
